import Mathlib

/-
Shallow embedding of the Log Analytics and Session Correlation Engine of the
windsurf-fedramp-hooks-logger repository: the workflow correlator and the
metrics dashboard found (in duplicate) in the two App.jsx variants.

Modelling conventions:
- JavaScript timestamps are modelled at the precision the code uses them.
  Where the code only ever calls new Date(t or 0).getTime() the event carries
  the resulting epoch-millisecond value as an Int (valid ISO-8601 inputs
  assumed; an absent timestamp gives 0, matching new Date(0).getTime()).
  Where the code operates on the raw timestamp string (the metrics dashboard)
  the event carries the string, and local time is taken to be UTC.
- JavaScript objects used as counters (insertion-ordered string keys) become
  association lists that append unseen keys, which is the Object.entries
  enumeration order for non-index string keys.
- Array.prototype.sort with a numeric comparator is a stable sort (ES2019),
  so it is modelled by List.insertionSort with the corresponding total
  preorder; any two stable sorts of the same preorder agree extensionally.
- Empty strings model absent or empty JS fields, matching JS truthiness of
  strings, so a test like (e.category or e.type) becomes a test against "".
-/

namespace WCorr

/-- Normalized hook event as consumed by the workflow correlator: the
correlator reads only the category and legacy type tags, the event id and the
timestamp (always through new Date(timestamp or 0).getTime(), carried here as
epoch milliseconds). -/
structure Event where
  event_id : String
  category : String
  type : String
  ts : Int
  deriving DecidableEq, Repr

/-- Session object as delivered by the sessions API: an id and its event
list. -/
structure Session where
  id : String
  events : List Event
  deriving DecidableEq, Repr

/-- Event copied into the correlation pool: the correlator spreads each event
and adds a _sessionId tag in the all-events pass (some id); events taken
directly from a session's own list carry no tag (none). -/
structure TaggedEvent where
  ev : Event
  sid : Option String
  deriving DecidableEq, Repr

/-- One workflow group: an anchoring prompt (none for the pre-session
fallback group), the actions attributed to it, and the display id. -/
structure Group where
  prompt : Option TaggedEvent
  actions : List TaggedEvent
  id : String
  deriving DecidableEq, Repr

/-- JS expression (e.category or e.type): the category when truthy, else the
type field. -/
def catOrType (e : Event) : String :=
  if e.category == "" then e.type else e.category

/-- Test (e.category or e.type) === 'prompt' on a pooled event. -/
def isPromptT (t : TaggedEvent) : Bool :=
  catOrType t.ev == "prompt"

/-- Ascending timestamp order used by every sort in the correlator,
comparator (a, b) => timeA - timeB. -/
def tsLe (a b : TaggedEvent) : Prop := a.ev.ts ≤ b.ev.ts

instance : DecidableRel tsLe := fun a b => Int.decLe a.ev.ts b.ev.ts

/-- Same order on untagged events, for the session-local sort. -/
def tsLeE (a b : Event) : Prop := a.ts ≤ b.ts

instance : DecidableRel tsLeE := fun a b => Int.decLe a.ts b.ts

/-- All events of all sessions, each tagged with its session id, in push
order. -/
def allRawOf (sessions : List Session) : List TaggedEvent :=
  sessions.flatMap (fun s => s.events.map (fun e => ⟨e, some s.id⟩))

/-- The correlation pool: all events of all sessions, sorted chronologically
(stable). -/
def allEventsOf (sessions : List Session) : List TaggedEvent :=
  List.insertionSort tsLe (allRawOf sessions)

/-- Corpus-wide prompts, chronological. -/
def promptsOf (sessions : List Session) : List TaggedEvent :=
  (allEventsOf sessions).filter isPromptT

/-- Corpus-wide non-prompt actions, chronological. -/
def actionsOf (sessions : List Session) : List TaggedEvent :=
  (allEventsOf sessions).filter (fun t => !isPromptT t)

/-- Comparison actionTime < nextPromptTime where the next prompt time is
Infinity (none) after the last prompt. -/
def ltOptB (t : Int) : Option Int → Bool
  | none => true
  | some u => decide (t < u)

/-- Group id: prompt.event_id when truthy, else a positional fallback id. -/
def groupIdOf (e : Event) (i : Nat) : String :=
  if e.event_id == "" then "group-" ++ toString i else e.event_id

/-- Filter actionTime > promptTime and actionTime < nextPromptTime over the
tagged action pool. -/
def windowActions (pool : List TaggedEvent) (lo : Int) (hi : Option Int) : List TaggedEvent :=
  pool.filter (fun a => decide (lo < a.ev.ts) && ltOptB a.ev.ts hi)

/-- Same half-window filter over a session's own (untagged) events. -/
def windowSessionEvents (pool : List Event) (lo : Int) (hi : Option Int) : List Event :=
  pool.filter (fun a => decide (lo < a.ts) && ltOptB a.ts hi)

/-- Case A loop of workflowGroups: one group per prompt, owning the actions
strictly between that prompt and the next. The Nat argument is the loop
index, used only for the fallback group id. -/
def noSessAux (actions : List TaggedEvent) : Nat → List TaggedEvent → List Group
  | _, [] => []
  | i, p :: rest =>
    { prompt := some p,
      actions := windowActions actions p.ev.ts ((rest.head?).map (fun q => q.ev.ts)),
      id := groupIdOf p.ev i } :: noSessAux actions (i + 1) rest

/-- Case B prompt selection: corpus prompts strictly before the session's
earliest event and strictly within 300000 ms of it. -/
def relevantPromptsFn (prompts : List TaggedEvent) (t0 : Int) : List TaggedEvent :=
  prompts.filter (fun p => decide (p.ev.ts < t0) && decide (t0 - p.ev.ts < 300000))

/-- Session-local events enter their group without a _sessionId tag. -/
def tagNone (e : Event) : TaggedEvent := ⟨e, none⟩

/-- Case B loop of workflowGroups: a relevant prompt is kept when it captured
at least one session event or is the only relevant prompt. The first Nat is
the total number of relevant prompts, the second the number of groups pushed
so far (used for the fallback id, mirroring groups.length at push time). -/
def sessAux (sev : List Event) (total : Nat) : Nat → List TaggedEvent → List Group
  | _, [] => []
  | g, p :: rest =>
    let related := windowSessionEvents sev p.ev.ts ((rest.head?).map (fun q => q.ev.ts))
    if related.length > 0 || total == 1 then
      { prompt := some p, actions := related.map tagNone, id := groupIdOf p.ev g }
        :: sessAux sev total (g + 1) rest
    else sessAux sev total g rest

/-- Earliest action time: sessionEvents.length > 0 ? first timestamp : 0. -/
def headTsE : List Event → Int
  | [] => 0
  | e :: _ => e.ts

/-- Case B of workflowGroups for a found session: sort the session's events,
select relevant prompts, run the loop, and fall back to a single null-prompt
group holding all session events when the loop produced nothing. -/
def sessionGroups (prompts : List TaggedEvent) (s : Session) : List Group :=
  if s.events.isEmpty then []
  else
    let sev := List.insertionSort tsLeE s.events
    let t0 := headTsE sev
    let relevant := relevantPromptsFn prompts t0
    let gs := sessAux sev relevant.length 0 relevant
    if gs.isEmpty && !sev.isEmpty then
      [{ prompt := none, actions := sev.map tagNone, id := "session-actions" }]
    else gs

/-- The workflowGroups function of the first App variant (src/unnamed/part_001
lines 415-522): empty selection gives no groups; the "no_session" target runs
the per-prompt window loop over the corpus; a specific session target runs
the relevant-prompt heuristic over that session's own events. -/
def workflowGroupsV1 (selectedSession : String) (sessions : List Session) : List Group :=
  if selectedSession == "" then []
  else if selectedSession == "no_session" then
    noSessAux (actionsOf sessions) 0 (promptsOf sessions)
  else
    match sessions.find? (fun s => s.id == selectedSession) with
    | none => []
    | some s => sessionGroups (promptsOf sessions) s

/-- The workflowGroups function of the second App variant (src/unnamed/part_002
lines 428-535); the source text of the two variants is identical. -/
def workflowGroupsV2 (selectedSession : String) (sessions : List Session) : List Group :=
  if selectedSession == "" then []
  else if selectedSession == "no_session" then
    noSessAux (actionsOf sessions) 0 (promptsOf sessions)
  else
    match sessions.find? (fun s => s.id == selectedSession) with
    | none => []
    | some s => sessionGroups (promptsOf sessions) s

end WCorr

namespace WMetrics

/-- Log record as consumed by the client-side MetricsDashboard of the first
App variant: the raw timestamp string plus the string and numeric fields the
dashboard reads (nested data fields are flattened, "" modelling an absent
field). -/
structure Log where
  category : String
  type : String
  timestamp : String
  trajectory_id : String
  data_file_path : String
  file_path : String
  data_command_line : String
  command_line : String
  data_mcp_tool_name : String
  data_mcp_full_tool : String
  data_total_lines_added : Nat
  data_total_lines_removed : Nat
  deriving DecidableEq, Repr

/-- One entry of the last-7-days activity strip. -/
structure RecentDay where
  label : String
  date : String
  count : Nat
  deriving DecidableEq, Repr

/-- Two-step JS truthiness fallback (a or b). -/
def fb2 (a b : String) : String := if a == "" then b else a

/-- Three-step JS truthiness fallback (a or b or c). -/
def fb3 (a b c : String) : String := if a == "" then fb2 b c else a

/-- Digit value of an ASCII digit character. -/
def dv (c : Char) : Nat := c.toNat - 48

/-- Parse of the leading year, month, day and hour of an ISO-8601 timestamp
string of the form YYYY-MM-DDTHH...; none for anything else (modelling the
NaN path of new Date on a missing or malformed timestamp, which touches no
histogram bucket). Local time is taken to be UTC. -/
def parseIso (s : String) : Option (Nat × Nat × Nat × Nat) :=
  match s.toList with
  | y1 :: y2 :: y3 :: y4 :: '-' :: m1 :: m2 :: '-' :: d1 :: d2 :: 'T' :: h1 :: h2 :: _ =>
    if y1.isDigit && y2.isDigit && y3.isDigit && y4.isDigit && m1.isDigit && m2.isDigit
        && d1.isDigit && d2.isDigit && h1.isDigit && h2.isDigit then
      some (dv y1 * 1000 + dv y2 * 100 + dv y3 * 10 + dv y4,
            dv m1 * 10 + dv m2, dv d1 * 10 + dv d2, dv h1 * 10 + dv h2)
    else none
  | _ => none

/-- Hour component, modelling new Date(timestamp).getHours() under UTC. -/
def jsHour (s : String) : Option Nat := (parseIso s).map (fun t => t.2.2.2)

/-- Gregorian day of week (Sunday = 0) by Sakamoto's method. -/
def sakamotoDay (y m d : Nat) : Nat :=
  let y2 := if m < 3 then y - 1 else y
  let t := [0, 3, 2, 5, 0, 3, 5, 1, 4, 6, 2, 4]
  (y2 + y2 / 4 - y2 / 100 + y2 / 400 + t.getD (m - 1) 0 + d) % 7

/-- Day of week, modelling new Date(timestamp).getDay() (Sunday = 0) under
UTC. -/
def jsDay (s : String) : Option Nat :=
  (parseIso s).map (fun t => sakamotoDay t.1 t.2.1 t.2.2.1)

/-- Prefix test on strings, modelling timestamp?.startsWith(dateStr); an
absent timestamp ("" here, undefined in JS) never matches a date prefix. -/
def strStartsWith (s p : String) : Bool := p.toList.isPrefixOf s.toList

/-- Split of a character list at a separator character, modelling
String.prototype.split with a single-character separator. -/
def splitOnChar (c : Char) : List Char → List (List Char)
  | [] => [[]]
  | x :: xs =>
    let r := splitOnChar c xs
    if x == c then [] :: r
    else
      match r with
      | [] => [[x]]
      | h :: t => (x :: h) :: t

/-- Basename, modelling filePath.split('/').pop(). -/
def basename (s : String) : String :=
  String.mk ((splitOnChar '/' s.toList).getLastD [])

/-- First whitespace-delimited token, modelling cmd.split(' ')[0]. -/
def firstToken (s : String) : String :=
  String.mk ((splitOnChar ' ' s.toList).headD [])

/-- One counting step of a JS object used as a counter: increment the key in
place if present, else append it with count 1. This list records the
object's contents in insertion order; the enumeration order that
Object.entries delivers is derived from it by jsEntries below, which moves
array-index keys to the front. -/
def bumpKey : List (String × Nat) → String → List (String × Nat)
  | [], k => [(k, 1)]
  | (k2, n) :: rest, k =>
    if k2 == k then (k2, n + 1) :: rest else (k2, n) :: bumpKey rest k

/-- Counter object built over a list of keys, modelling
obj[key] = (obj[key] or 0) + 1 inside a forEach: the insertion record of
the object, prior to the Object.entries enumeration reordering. -/
def tally (ks : List String) : List (String × Nat) := ks.foldl bumpKey []

/-- Numeric value of a decimal digit string. -/
def strToNat (s : String) : Nat :=
  s.toList.foldl (fun acc c => acc * 10 + (c.toNat - 48)) 0

/-- ECMAScript array-index test for a property key: a canonical decimal
string (no leading zero except the string consisting of the single digit
zero) whose numeric value is at most 2^32 - 2. Object.entries enumerates
such keys before every other string key, in ascending numeric order. -/
def isArrayIndex (s : String) : Bool :=
  !s.toList.isEmpty && s.toList.all (fun c => c.isDigit)
    && (s == "0" || !(s.toList.head? == some '0'))
    && strToNat s ≤ 4294967294

/-- Ascending numeric order of array-index keys. -/
def idxLe (a b : String × Nat) : Prop := strToNat a.1 ≤ strToNat b.1

instance : DecidableRel idxLe := fun a b => Nat.decLe (strToNat a.1) (strToNat b.1)

/-- Enumeration order of Object.entries over a counter object: array-index
keys first, in ascending numeric order, then the remaining string keys in
insertion (first-seen) order. -/
def jsEntries (l : List (String × Nat)) : List (String × Nat) :=
  List.insertionSort idxLe (l.filter (fun p => isArrayIndex p.1))
    ++ l.filter (fun p => !isArrayIndex p.1)

/-- Set.add step: first-seen insertion of a string into a JS Set, modelled as
an append-if-new list. -/
def addNew (acc : List String) (k : String) : List String :=
  if acc.contains k then acc else acc ++ [k]

/-- First-seen deduplication, modelling accumulation into a JS Set. -/
def dedupFS (ks : List String) : List String := ks.foldl addNew []

/-- Descending-count order used by every top-N ranking, comparator
(a, b) => b[1] - a[1]. -/
def cntGe (a b : String × Nat) : Prop := b.2 ≤ a.2

instance : DecidableRel cntGe := fun a b => Nat.decLe b.2 a.2

/-- Stable descending sort by count, modelling Array.prototype.sort with the
comparator (a, b) => b[1] - a[1] (stable per ES2019). -/
def sortCnt (l : List (String × Nat)) : List (String × Nat) :=
  List.insertionSort cntGe l

/-- Math.max(...l, 1). -/
def listMax1 (l : List Nat) : Nat := l.foldl Nat.max 1

/-- Math.round(a / b) on nonnegative integers: floor(a / b + 1/2) computed
exactly as (2 a + b) / (2 b). -/
def jsRoundDiv (a b : Nat) : Nat := (2 * a + b) / (2 * b)

/-- Days since the Unix epoch of an epoch-millisecond instant (floor
division, matching UTC calendar arithmetic). -/
def epochDays (ms : Int) : Int := Int.fdiv ms 86400000

/-- Civil date (year, month, day) from days since the epoch, the standard
era-based Gregorian algorithm used by date libraries. -/
def civilFromDays (z0 : Int) : Int × Int × Int :=
  let z := z0 + 719468
  let era := Int.fdiv z 146097
  let doe := z - era * 146097
  let yoe := Int.fdiv (doe - Int.fdiv doe 1460 + Int.fdiv doe 36524 - Int.fdiv doe 146096) 365
  let y := yoe + era * 400
  let doy := doe - (365 * yoe + Int.fdiv yoe 4 - Int.fdiv yoe 100)
  let mp := Int.fdiv (5 * doy + 2) 153
  let d := doy - Int.fdiv (153 * mp + 2) 5 + 1
  let m := if mp < 10 then mp + 3 else mp - 9
  (if m ≤ 2 then y + 1 else y, m, d)

/-- Zero-padded two-digit decimal rendering. -/
def pad2 (n : Nat) : String := if n < 10 then "0" ++ toString n else toString n

/-- Zero-padded four-digit decimal rendering. -/
def pad4 (n : Nat) : String :=
  if n < 10 then "000" ++ toString n
  else if n < 100 then "00" ++ toString n
  else if n < 1000 then "0" ++ toString n
  else toString n

/-- Date part of toISOString(): the YYYY-MM-DD string of an epoch-millisecond
instant (toISOString always uses UTC). -/
def isoDateStr (ms : Int) : String :=
  let c := civilFromDays (epochDays ms)
  pad4 c.1.toNat ++ "-" ++ pad2 c.2.1.toNat ++ "-" ++ pad2 c.2.2.toNat

/-- Short weekday label of an instant, modelling
toLocaleDateString('en-US', weekday short) under UTC; epoch day zero was a
Thursday. -/
def weekdayShort (ms : Int) : String :=
  (["Sun", "Mon", "Tue", "Wed", "Thu", "Fri", "Sat"]).getD
    ((Int.emod (epochDays ms + 4) 7).toNat) ""

/-- Events passing the file-write filter
l.category === 'file_write' or l.type === 'file_write'. -/
def writesOf (logs : List Log) : List Log :=
  logs.filter (fun l => l.category == "file_write" || l.type == "file_write")

/-- Basename key of a write event:
(log.data?.file_path or log.file_path or 'unknown').split('/').pop(). -/
def fileNameOf (l : Log) : String :=
  basename (fb3 l.data_file_path l.file_path "unknown")

/-- Basenames of all write events, in order. -/
def writeFileNames (logs : List Log) : List String :=
  (writesOf logs).map fileNameOf

/-- The fileChanges counter object keyed by basename. -/
def fileCounts (logs : List Log) : List (String × Nat) :=
  tally (writeFileNames logs)

/-- Top modified files: Object.entries(fileChanges) in JS enumeration order,
sorted by count descending (stable) and truncated to 8 entries. -/
def topFilesV1 (logs : List Log) : List (String × Nat) :=
  (sortCnt (jsEntries (fileCounts logs))).take 8

/-- Command-name keys of command events:
(log.data?.command_line or log.command_line or 'unknown').split(' ')[0]. -/
def commandNames (logs : List Log) : List String :=
  (logs.filter (fun l => l.category == "command" || l.type == "command")).map
    (fun l => firstToken (fb3 l.data_command_line l.command_line "unknown"))

/-- MCP tool-name keys of mcp events:
log.data?.mcp_tool_name or log.data?.mcp_full_tool or 'unknown'. -/
def mcpNames (logs : List Log) : List String :=
  (logs.filter (fun l => l.category == "mcp" || l.type == "mcp")).map
    (fun l => fb3 l.data_mcp_tool_name l.data_mcp_full_tool "unknown")

/-- Distinct non-empty trajectory ids, first-seen order (the uniqueSessionIds
Set). -/
def sessionIds (logs : List Log) : List String :=
  dedupFS ((logs.map (fun l => l.trajectory_id)).filter (fun t => t != ""))

/-- Last-7-days strip: for i = 6 down to 0 the instant now - i days, its
ISO date string, its short weekday label, and how many logs' raw timestamp
strings start with that date. -/
def recentDaysOf (logs : List Log) (nowMs : Int) : List RecentDay :=
  (List.range 7).map (fun k =>
    let dms := nowMs - ((6 - k : Nat) : Int) * 86400000
    let dateStr := isoDateStr dms
    { label := weekdayShort dms, date := dateStr,
      count := (logs.filter (fun l => strStartsWith l.timestamp dateStr)).length })

/-- The metrics object computed by the MetricsDashboard of the first App
variant (src/unnamed/part_001 lines 2066-2183). -/
structure MetricsV1 where
  totalEvents : Nat
  categoryBreakdown : List (String × Nat)
  hourlyActivity : List Nat
  maxHourly : Nat
  dailyActivity : List Nat
  dayNames : List String
  maxDaily : Nat
  topFiles : List (String × Nat)
  topCommands : List (String × Nat)
  topMcpTools : List (String × Nat)
  avgEventsPerSession : Nat
  totalLinesAdded : Nat
  totalLinesRemoved : Nat
  recentDays : List RecentDay
  maxRecentDaily : Nat
  uniqueFilesCount : Nat
  filteredSessionCount : Nat
  deriving DecidableEq, Repr

/-- Client-side metrics aggregation of the first App variant, a function of
the filtered logs and of the wall clock (the recent-days strip reads
new Date()). Histogram buckets hold the number of logs whose parsed hour or
weekday equals the bucket index, the final value of the imperative
bucket-increment loops. -/
def metricsV1 (logs : List Log) (nowMs : Int) : MetricsV1 :=
  let hourly := (List.range 24).map (fun h => logs.countP (fun l => jsHour l.timestamp == some h))
  let daily := (List.range 7).map (fun d => logs.countP (fun l => jsDay l.timestamp == some d))
  let fcs := fileCounts logs
  let recent := recentDaysOf logs nowMs
  let sessCount := if (sessionIds logs).length == 0 then 1 else (sessionIds logs).length
  { totalEvents := logs.length,
    categoryBreakdown := tally (logs.map (fun l => fb3 l.category l.type "unknown")),
    hourlyActivity := hourly,
    maxHourly := listMax1 hourly,
    dailyActivity := daily,
    dayNames := ["Sun", "Mon", "Tue", "Wed", "Thu", "Fri", "Sat"],
    maxDaily := listMax1 daily,
    topFiles := (sortCnt (jsEntries fcs)).take 8,
    topCommands := (sortCnt (jsEntries (tally (commandNames logs)))).take 6,
    topMcpTools := (sortCnt (jsEntries (tally (mcpNames logs)))).take 6,
    avgEventsPerSession := if sessCount > 0 then jsRoundDiv logs.length sessCount else 0,
    totalLinesAdded := ((writesOf logs).map (fun l => l.data_total_lines_added)).sum,
    totalLinesRemoved := ((writesOf logs).map (fun l => l.data_total_lines_removed)).sum,
    recentDays := recent,
    maxRecentDaily := listMax1 (recent.map (fun d => d.count)),
    uniqueFilesCount := fcs.length,
    filteredSessionCount := sessCount }

/-- Named count entry as served by the backend metrics API. -/
structure NamedCount where
  name : String
  count : Nat
  deriving DecidableEq, Repr

/-- Server metrics payload read by the MetricsDashboard of the second App
variant; every field may be absent. -/
structure AggMetrics where
  total_events : Option Nat
  categories : Option (List (String × Nat))
  hourly_activity : Option (List Nat)
  daily_activity : Option (List Nat)
  top_files : Option (List NamedCount)
  top_commands : Option (List NamedCount)
  top_mcp_tools : Option (List NamedCount)
  recent_days : Option (List RecentDay)
  unique_sessions : Option Nat
  total_lines_added : Option Nat
  total_lines_removed : Option Nat
  unique_files_count : Option Nat
  date_range : Option (Option String × Option String)
  deriving DecidableEq, Repr

/-- The component-format metrics of the second App variant (the fields both
branches define; presentation-only derived maxima are omitted, being absent
from the loading-state branch). -/
structure MetricsV2 where
  totalEvents : Nat
  categoryBreakdown : List (String × Nat)
  hourlyActivity : List Nat
  dailyActivity : List Nat
  recentDays : List RecentDay
  topFiles : List (String × Nat)
  topCommands : List (String × Nat)
  topMcpTools : List (String × Nat)
  uniqueSessions : Nat
  totalLinesAdded : Nat
  totalLinesRemoved : Nat
  uniqueFilesCount : Nat
  dateRange : Option String × Option String
  deriving DecidableEq, Repr

/-- Rotation applied at the presentation boundary of the second App variant,
the expression of serverDaily index 6 consed onto serverDaily.slice(0, 6)
(the backend histogram always has 7 buckets). -/
def rotateDaily (s : List Nat) : List Nat := (s.drop 6).take 1 ++ s.take 6

/-- Metrics conversion of the second App variant (src/unnamed/part_002 lines
2073-2126): the all-zero loading-state snapshot when no server payload is
present, else a field-by-field mapping of the server payload with the
day-of-week histogram rotated from the backend Monday-first convention to
the frontend Sunday-first one. -/
def metricsV2 : Option AggMetrics → MetricsV2
  | none =>
    { totalEvents := 0, categoryBreakdown := [],
      hourlyActivity := List.replicate 24 0, dailyActivity := List.replicate 7 0,
      recentDays := [], topFiles := [], topCommands := [], topMcpTools := [],
      uniqueSessions := 0, totalLinesAdded := 0, totalLinesRemoved := 0,
      uniqueFilesCount := 0, dateRange := (none, none) }
  | some agg =>
    { totalEvents := agg.total_events.getD 0,
      categoryBreakdown := agg.categories.getD [],
      hourlyActivity := agg.hourly_activity.getD (List.replicate 24 0),
      dailyActivity := rotateDaily (agg.daily_activity.getD (List.replicate 7 0)),
      recentDays := agg.recent_days.getD [],
      topFiles := (agg.top_files.getD []).map (fun f => (f.name, f.count)),
      topCommands := (agg.top_commands.getD []).map (fun c => (c.name, c.count)),
      topMcpTools := (agg.top_mcp_tools.getD []).map (fun t => (t.name, t.count)),
      uniqueSessions := agg.unique_sessions.getD 0,
      totalLinesAdded := agg.total_lines_added.getD 0,
      totalLinesRemoved := agg.total_lines_removed.getD 0,
      uniqueFilesCount := agg.unique_files_count.getD 0,
      dateRange := agg.date_range.getD (none, none) }

/-- Modelled from the spec: the backend metrics aggregator (the repository's
dashboard/backend/app.py, which is not among the source files under src/)
computes the day-of-week histogram with seven buckets indexed 0=Monday
through 6=Sunday, as the spec and the source comment of the second App
variant state; bucket j holds the number of logs whose UTC weekday has
Monday-first index j. -/
def backendDailyActivity (logs : List Log) : List Nat :=
  (List.range 7).map (fun j => logs.countP (fun l => jsDay l.timestamp == some ((j + 1) % 7)))

end WMetrics

namespace WCorr

instance : IsTotal TaggedEvent tsLe := ⟨fun a b => Int.le_total a.ev.ts b.ev.ts⟩

instance : IsTrans TaggedEvent tsLe := ⟨fun _ _ _ hab hbc => le_trans hab hbc⟩

instance : IsTotal Event tsLeE := ⟨fun a b => Int.le_total a.ts b.ts⟩

instance : IsTrans Event tsLeE := ⟨fun _ _ _ hab hbc => le_trans hab hbc⟩

/-- Window of the relevant prompt at position k of the list R: the session
events strictly after that prompt and strictly before the next relevant
prompt (no bound after the last); empty when k is out of range. -/
def relatedAt (sev : List Event) (R : List TaggedEvent) (k : Nat) : List Event :=
  match R.get? k with
  | none => []
  | some p => windowSessionEvents sev p.ev.ts ((R.get? (k + 1)).map (fun q => q.ev.ts))

/-- Timestamp of the first prompt, 0 when there is none. -/
def headTsT : List TaggedEvent → Int
  | [] => 0
  | p :: _ => p.ev.ts

/-- Concrete corpus for exercising full-coverage correlation: one prompt at
0 ms and one action at 5 ms. -/
def wSessC1 : List Session :=
  [⟨"no_session", [⟨"p1", "prompt", "", 0⟩, ⟨"a1", "file_write", "", 5⟩]⟩]

/-- The tagged action of wSessC1 as it appears in the correlation pool. -/
def wActC1 : TaggedEvent := ⟨⟨"a1", "file_write", "", 5⟩, some "no_session"⟩

/-- Concrete corpus with an action (50 ms) before the only prompt
(100 ms). -/
def cexSessC1 : List Session :=
  [⟨"no_session", [⟨"a0", "file_write", "", 50⟩, ⟨"p0", "prompt", "", 100⟩]⟩]

/-- The tagged early action of cexSessC1. -/
def cexActC1 : TaggedEvent := ⟨⟨"a0", "file_write", "", 50⟩, some "no_session"⟩

/-- Concrete corpus with an action whose timestamp (100 ms) equals the only
prompt's timestamp. -/
def cexSessC2 : List Session :=
  [⟨"no_session", [⟨"p1", "prompt", "", 100⟩, ⟨"a1", "file_write", "", 100⟩]⟩]

/-- The tagged simultaneous action of cexSessC2. -/
def cexActC2 : TaggedEvent := ⟨⟨"a1", "file_write", "", 100⟩, some "no_session"⟩

/-- Concrete prompt for the window-membership witness. -/
def wPromptC2 : TaggedEvent := ⟨⟨"p2", "prompt", "", 0⟩, some "no_session"⟩

/-- Concrete action strictly inside wPromptC2's window. -/
def wActC2 : TaggedEvent := ⟨⟨"a2", "command", "", 10⟩, some "x"⟩

/-- Concrete prompt 240000 ms (4 minutes) before a 1000000 ms reference
instant. -/
def wPromptC3 : TaggedEvent := ⟨⟨"p3", "prompt", "", 760000⟩, none⟩

/-- Concrete relevant prompt for the lone-prompt emission witness. -/
def wPromptC4 : TaggedEvent := ⟨⟨"p4", "prompt", "", 0⟩, some "no_session"⟩

/-- Concrete corpus with a single session holding one action and no prompt
anywhere. -/
def wSessC5 : List Session := [⟨"s1", [⟨"a5", "file_write", "", 100⟩]⟩]

/-- The session object of wSessC5. -/
def wSessionC5 : Session := ⟨"s1", [⟨"a5", "file_write", "", 100⟩]⟩

end WCorr

namespace WMetrics

/-- Association-list lookup with zero default, reading a JS counter
object. -/
def lookupD : List (String × Nat) → String → Nat
  | [], _ => 0
  | (k2, n) :: rest, k => if k2 == k then n else lookupD rest k

instance : IsTotal (String × Nat) cntGe := ⟨fun a b => Nat.le_total b.2 a.2⟩

instance : IsTrans (String × Nat) cntGe := ⟨fun _ _ _ hab hbc => Nat.le_trans hbc hab⟩

/-- Three file_write logs: a.py touched twice (under different directories)
and b.py once. -/
def exampleTopFiles : List Log :=
  [⟨"file_write", "", "", "", "src/a.py", "", "", "", "", "", 0, 0⟩,
   ⟨"file_write", "", "", "", "lib/b.py", "", "", "", "", "", 0, 0⟩,
   ⟨"file_write", "", "", "", "x/a.py", "", "", "", "", "", 0, 0⟩]

/-- Two file_write logs touching distinct basenames once each: a.py first,
then a file literally named 3 — an array-index string key. -/
def cexTopFiles : List Log :=
  [⟨"file_write", "", "", "", "x/a.py", "", "", "", "", "", 0, 0⟩,
   ⟨"file_write", "", "", "", "y/3", "", "", "", "", "", 0, 0⟩]

/-- One prompt log stamped on a Sunday (2024-01-07 is a Sunday). -/
def sundayLog : Log := ⟨"prompt", "", "2024-01-07T10:00:00.000Z", "", "", "", "", "", "", "", 0, 0⟩

/-- Server payload carrying only a day-of-week histogram. -/
def aggC8 : AggMetrics :=
  ⟨none, none, none, some [1, 2, 3, 4, 5, 6, 7], none, none, none, none, none, none, none,
   none, none⟩

/-- One log stamped 1970-01-05 (a Monday near the epoch, keeping the
concrete date arithmetic small). -/
def clockLog : Log := ⟨"prompt", "", "1970-01-05T10:00:00.000Z", "tA", "", "", "", "", "", "", 0, 0⟩

end WMetrics

namespace WCorr

/-- C10: the workflowGroups functions of the two App variants are
extensionally equal: on every (selectedSession, sessions) input they return
the same list of groups; the two source texts are in fact identical, so the
two embeddings coincide definitionally. -/
theorem variants_agree :
    ∀ (selectedSession : String) (sessions : List Session),
      workflowGroupsV1 selectedSession sessions = workflowGroupsV2 selectedSession sessions :=
  fun _ _ => rfl

/-- C3: in the specific-session case, a corpus-wide prompt is selected as
relevant exactly when its timestamp is strictly below the session's earliest
event time t0 and strictly within 300000 ms of it; a prompt 240000 ms (4
minutes) early is selected, prompts 1200000 ms (20 minutes) or exactly
300000 ms (5 minutes) early are excluded. -/
theorem relevantPrompts_selection :
    (∀ (prompts : List TaggedEvent) (t0 : Int) (p : TaggedEvent),
        p ∈ relevantPromptsFn prompts t0
          ↔ p ∈ prompts ∧ p.ev.ts < t0 ∧ t0 - p.ev.ts < 300000)
  ∧ (∀ (prompts : List TaggedEvent) (t0 : Int) (p : TaggedEvent),
        p ∈ prompts → p.ev.ts = t0 - 240000 → p ∈ relevantPromptsFn prompts t0)
  ∧ (∀ (prompts : List TaggedEvent) (t0 : Int) (p : TaggedEvent),
        p.ev.ts = t0 - 1200000 → p ∉ relevantPromptsFn prompts t0)
  ∧ (∀ (prompts : List TaggedEvent) (t0 : Int) (p : TaggedEvent),
        p.ev.ts = t0 - 300000 → p ∉ relevantPromptsFn prompts t0) := by
  have base : ∀ (prompts : List TaggedEvent) (t0 : Int) (p : TaggedEvent),
      p ∈ relevantPromptsFn prompts t0
        ↔ p ∈ prompts ∧ p.ev.ts < t0 ∧ t0 - p.ev.ts < 300000 := by
    intro prompts t0 p
    simp [relevantPromptsFn, List.mem_filter]
  refine ⟨base, ?_, ?_, ?_⟩
  · intro prompts t0 p hp hts
    exact (base prompts t0 p).mpr ⟨hp, by omega, by omega⟩
  · intro prompts t0 p hts hmem
    have := ((base prompts t0 p).mp hmem).2.2
    omega
  · intro prompts t0 p hts hmem
    have := ((base prompts t0 p).mp hmem).2.2
    omega

/-- Witness for C3 at a concrete input: a prompt 240000 ms before the
reference instant is selected. -/
theorem relevantPrompts_selection_witness :
    wPromptC3 ∈ relevantPromptsFn [wPromptC3] 1000000 :=
  (relevantPrompts_selection.1 [wPromptC3] 1000000 wPromptC3).mpr
    ⟨by decide, by decide, by decide⟩

/-- Shape of the k-th group of the no_session loop: it anchors the k-th
prompt and holds the actions strictly between that prompt and the next. -/
theorem noSessAux_get? (actions : List TaggedEvent) :
    ∀ (P : List TaggedEvent) (i k : Nat),
      (noSessAux actions i P).get? k =
        (P.get? k).map (fun p =>
          { prompt := some p,
            actions := windowActions actions p.ev.ts ((P.get? (k + 1)).map (fun q => q.ev.ts)),
            id := groupIdOf p.ev (i + k) })
  | [], _, k => by simp [noSessAux]
  | _ :: rest, i, 0 => by
      simp only [noSessAux, List.get?]
      cases rest <;> rfl
  | _ :: rest, i, (k + 1) => by
      simp only [noSessAux, List.get?]
      rw [noSessAux_get? actions rest (i + 1) k]
      simp only [show i + 1 + k = i + (k + 1) from by omega]

/-- C2 amended: in the no_session case, for the chronologically sorted
prompt list, an action is assigned to the group of prompt k exactly when its
timestamp lies strictly between prompt k's timestamp and the next prompt's
timestamp (no upper bound after the last prompt); in particular an action
whose timestamp equals prompt k's timestamp is excluded from prompt k's
group. -/
theorem noSession_window_membership (actions prompts : List TaggedEvent) (k : Nat)
    (p : TaggedEvent) (hp : prompts.get? k = some p)
    (g : Group) (hg : (noSessAux actions 0 prompts).get? k = some g) (a : TaggedEvent) :
    a ∈ g.actions ↔
      a ∈ actions ∧ p.ev.ts < a.ev.ts ∧
        ∀ q, prompts.get? (k + 1) = some q → a.ev.ts < q.ev.ts := by
  rw [noSessAux_get? actions prompts 0 k, hp, Option.map_some'] at hg
  cases hg
  show a ∈ windowActions actions p.ev.ts ((prompts.get? (k + 1)).map (fun q => q.ev.ts)) ↔ _
  simp only [windowActions, List.mem_filter, Bool.and_eq_true, decide_eq_true_eq]
  cases hq : prompts.get? (k + 1) with
  | none =>
    simp only [Option.map_none', ltOptB]
    exact ⟨fun h => ⟨h.1, h.2.1, fun q hq2 => nomatch hq2⟩, fun h => ⟨h.1, h.2.1, trivial⟩⟩
  | some q =>
    simp only [Option.map_some', ltOptB, decide_eq_true_eq]
    constructor
    · rintro ⟨h1, h2, h3⟩
      exact ⟨h1, h2, fun q2 hq2 => by cases hq2; exact h3⟩
    · rintro ⟨h1, h2, h3⟩
      exact ⟨h1, h2, h3 q rfl⟩

/-- Witness for C2 at a concrete input: an action 10 ms after the only
prompt lands in that prompt's group. -/
theorem noSession_window_membership_witness :
    wActC2 ∈ ({ prompt := some wPromptC2, actions := [wActC2], id := "p2" } : Group).actions :=
  (noSession_window_membership [wActC2] [wPromptC2] 0 wPromptC2 rfl _ rfl wActC2).mpr
    ⟨by decide, by decide, fun _ hq => nomatch hq⟩

/-- C2 counterexample: with one prompt and one action both stamped 100 ms,
the code's strict lower bound leaves the prompt's group empty, though the
claim says an action whose timestamp equals the prompt's belongs to its
group. -/
theorem noSession_boundary_cex :
    (workflowGroupsV1 "no_session" cexSessC2).map (fun g => g.actions) = [[]]
  ∧ actionsOf cexSessC2 = [cexActC2]
  ∧ promptsOf cexSessC2 = [⟨⟨"p1", "prompt", "", 100⟩, some "no_session"⟩] := by
  decide

/-- Membership in a half-open ownership window. -/
theorem mem_windowActions (pool : List TaggedEvent) (lo : Int) (hi : Option Int)
    (a : TaggedEvent) :
    a ∈ windowActions pool lo hi ↔ a ∈ pool ∧ lo < a.ev.ts ∧ ltOptB a.ev.ts hi = true := by
  simp [windowActions, List.mem_filter]

/-- The corpus-wide prompt list is chronologically sorted. -/
theorem promptsOf_sorted (sessions : List Session) : (promptsOf sessions).Pairwise tsLe :=
  List.Pairwise.sublist (List.filter_sublist _) (List.sorted_insertionSort tsLe (allRawOf sessions))

/-- The no_session branch of workflowGroups is the per-prompt window
loop. -/
theorem workflowGroupsV1_noSession (sessions : List Session) :
    workflowGroupsV1 "no_session" sessions
      = noSessAux (actionsOf sessions) 0 (promptsOf sessions) := rfl

/-- One step of the no_session loop. -/
theorem noSessAux_cons (actions : List TaggedEvent) (i : Nat) (p : TaggedEvent)
    (P : List TaggedEvent) :
    noSessAux actions i (p :: P) =
      { prompt := some p,
        actions := windowActions actions p.ev.ts ((P.head?).map (fun q => q.ev.ts)),
        id := groupIdOf p.ev i } :: noSessAux actions (i + 1) P := rfl

/-- The no_session loop on an empty prompt list. -/
theorem noSessAux_nil (actions : List TaggedEvent) (i : Nat) :
    noSessAux actions i [] = [] := rfl

/-- How many groups of the no_session loop contain the given action: exactly
one when the action is strictly after the first prompt and shares no prompt's
timestamp, zero otherwise. -/
theorem countP_noSessAux (actions : List TaggedEvent) (a : TaggedEvent) (ha : a ∈ actions) :
    ∀ (P : List TaggedEvent) (i : Nat), P.Pairwise tsLe → ¬ P = [] →
      (noSessAux actions i P).countP (fun g => decide (a ∈ g.actions))
      = if headTsT P < a.ev.ts ∧ (∀ p ∈ P, a.ev.ts ≠ p.ev.ts) then 1 else 0
  | [], _, _, hne => absurd rfl hne
  | [p], i, _, _ => by
    have hmem : (a ∈ windowActions actions p.ev.ts ((List.head? []).map
        (fun q : TaggedEvent => q.ev.ts))) ↔ (p.ev.ts < a.ev.ts) := by
      rw [mem_windowActions]
      simp [ltOptB, ha]
    have hcond : (headTsT [p] < a.ev.ts ∧ ∀ x ∈ [p], a.ev.ts ≠ x.ev.ts)
        ↔ (p.ev.ts < a.ev.ts) := by
      simp only [headTsT, List.mem_singleton, forall_eq]
      constructor
      · exact fun h => h.1
      · exact fun h => ⟨h, by omega⟩
    rw [noSessAux_cons, noSessAux_nil, List.countP_cons, List.countP_nil, Nat.zero_add]
    simp only [decide_eq_true_eq]
    rw [if_congr (hmem.trans hcond.symm) rfl rfl]
  | p :: q :: rest, i, hsort, _ => by
    have htail : (q :: rest).Pairwise tsLe := (List.pairwise_cons.mp hsort).2
    have hpq : p.ev.ts ≤ q.ev.ts :=
      (List.pairwise_cons.mp hsort).1 q (List.mem_cons_self q rest)
    have hqrest : ∀ x ∈ rest, q.ev.ts ≤ x.ev.ts := (List.pairwise_cons.mp htail).1
    have IH := countP_noSessAux actions a ha (q :: rest) (i + 1) htail (List.cons_ne_nil q rest)
    have hmem : (a ∈ windowActions actions p.ev.ts ((List.head? (q :: rest)).map
        (fun x : TaggedEvent => x.ev.ts)))
        ↔ (p.ev.ts < a.ev.ts ∧ a.ev.ts < q.ev.ts) := by
      rw [mem_windowActions]
      simp [ltOptB, ha]
    rw [noSessAux_cons, List.countP_cons, IH]
    simp only [decide_eq_true_eq]
    have hIHcond : (headTsT (q :: rest) < a.ev.ts ∧ ∀ x ∈ q :: rest, a.ev.ts ≠ x.ev.ts)
        ↔ (q.ev.ts < a.ev.ts ∧ a.ev.ts ≠ q.ev.ts ∧ ∀ x ∈ rest, a.ev.ts ≠ x.ev.ts) := by
      simp [headTsT, List.forall_mem_cons]
    have hTcond : (headTsT (p :: q :: rest) < a.ev.ts ∧ ∀ x ∈ p :: q :: rest, a.ev.ts ≠ x.ev.ts)
        ↔ (p.ev.ts < a.ev.ts ∧ a.ev.ts ≠ p.ev.ts ∧ a.ev.ts ≠ q.ev.ts
            ∧ ∀ x ∈ rest, a.ev.ts ≠ x.ev.ts) := by
      simp [headTsT, List.forall_mem_cons]
    rw [if_congr hIHcond rfl rfl, if_congr hTcond rfl rfl, if_congr hmem rfl rfl]
    have hDr_of_lt : a.ev.ts < q.ev.ts → ∀ x ∈ rest, a.ev.ts ≠ x.ev.ts := by
      intro hlt x hx
      have := hqrest x hx
      omega
    by_cases hd : ∀ x ∈ rest, a.ev.ts ≠ x.ev.ts
    · have e2 : (q.ev.ts < a.ev.ts ∧ a.ev.ts ≠ q.ev.ts ∧ ∀ x ∈ rest, a.ev.ts ≠ x.ev.ts)
          ↔ (q.ev.ts < a.ev.ts ∧ a.ev.ts ≠ q.ev.ts) :=
        ⟨fun h => ⟨h.1, h.2.1⟩, fun h => ⟨h.1, h.2, hd⟩⟩
      have e3 : (p.ev.ts < a.ev.ts ∧ a.ev.ts ≠ p.ev.ts ∧ a.ev.ts ≠ q.ev.ts
            ∧ ∀ x ∈ rest, a.ev.ts ≠ x.ev.ts)
          ↔ (p.ev.ts < a.ev.ts ∧ a.ev.ts ≠ p.ev.ts ∧ a.ev.ts ≠ q.ev.ts) :=
        ⟨fun h => ⟨h.1, h.2.1, h.2.2.1⟩, fun h => ⟨h.1, h.2.1, h.2.2, hd⟩⟩
      rw [if_congr e2 rfl rfl, if_congr e3 rfl rfl]
      split_ifs <;> omega
    · rw [if_neg (fun hc => hd hc.2.2),
        if_neg (fun hc => hd (hDr_of_lt hc.2)),
        if_neg (fun hc => hd hc.2.2.2)]

/-- C1 amended: with at least one prompt in the corpus, no_session
correlation never places an action in two groups, and it places an action in
exactly one group precisely when the action's timestamp is strictly after
the first prompt's and equal to no prompt's; actions at or before the first
prompt, or sharing a timestamp with a prompt, are left out of every
group. -/
theorem noSession_action_coverage (sessions : List Session)
    (hne : ¬ promptsOf sessions = []) (a : TaggedEvent) (ha : a ∈ actionsOf sessions) :
    (workflowGroupsV1 "no_session" sessions).countP (fun g => decide (a ∈ g.actions))
    = if headTsT (promptsOf sessions) < a.ev.ts
          ∧ (∀ p ∈ promptsOf sessions, a.ev.ts ≠ p.ev.ts) then 1 else 0 := by
  rw [workflowGroupsV1_noSession]
  exact countP_noSessAux (actionsOf sessions) a ha (promptsOf sessions) 0
    (promptsOf_sorted sessions) hne

/-- Witness for C1 at a concrete input: an action 5 ms after the only prompt
is counted in exactly one group. -/
theorem noSession_action_coverage_witness :
    (workflowGroupsV1 "no_session" wSessC1).countP (fun g => decide (wActC1 ∈ g.actions)) = 1 :=
  (noSession_action_coverage wSessC1 (by decide) wActC1 (by decide)).trans (by decide)

/-- C1 counterexample: an action stamped before the only prompt is a
non-prompt event of the corpus yet belongs to zero groups, so total coverage
fails as claimed. -/
theorem noSession_coverage_cex :
    (workflowGroupsV1 "no_session" cexSessC1).countP (fun g => decide (cexActC1 ∈ g.actions)) = 0
  ∧ cexActC1 ∈ actionsOf cexSessC1
  ∧ ¬ promptsOf cexSessC1 = [] := by
  decide

/-- One step of the specific-session loop. -/
theorem sessAux_cons (sev : List Event) (total g : Nat) (p : TaggedEvent)
    (R : List TaggedEvent) :
    sessAux sev total g (p :: R) =
      if (windowSessionEvents sev p.ev.ts ((R.head?).map (fun q => q.ev.ts))).length > 0
          || total == 1 then
        { prompt := some p,
          actions := (windowSessionEvents sev p.ev.ts ((R.head?).map (fun q => q.ev.ts))).map
            tagNone,
          id := groupIdOf p.ev g } :: sessAux sev total (g + 1) R
      else sessAux sev total g R := rfl

/-- The relevant-prompt window at the head of the list. -/
theorem relatedAt_cons_zero (sev : List Event) (p : TaggedEvent) (R : List TaggedEvent) :
    relatedAt sev (p :: R) 0
      = windowSessionEvents sev p.ev.ts ((R.head?).map (fun q => q.ev.ts)) := by
  cases R <;> rfl

/-- Which prompt values anchor a group of the specific-session loop: exactly
the listed prompts whose window captured a session event, plus every prompt
when the relevant list is a singleton. -/
theorem sessAux_mem_prompt (sev : List Event) (total : Nat) (p : TaggedEvent) :
    ∀ (R : List TaggedEvent) (g : Nat),
      (∃ gr, gr ∈ sessAux sev total g R ∧ gr.prompt = some p)
      ↔ ∃ k, ∃ h : k < R.length, R.get ⟨k, h⟩ = p ∧ (¬ relatedAt sev R k = [] ∨ total = 1)
  | [], g => by
    constructor
    · rintro ⟨gr, hmem, _⟩
      exact absurd hmem (by simp [sessAux])
    · rintro ⟨k, h, _⟩
      exact absurd h (by simp)
  | q :: R, g => by
    by_cases hc : ¬ relatedAt sev (q :: R) 0 = [] ∨ total = 1
    · have hb : ((windowSessionEvents sev q.ev.ts ((R.head?).map (fun x => x.ev.ts))).length > 0
          || total == 1) = true := by
        rcases hc with hne | ht
        · rw [relatedAt_cons_zero] at hne
          simp [List.length_pos, hne]
        · simp [ht]
      rw [sessAux_cons, if_pos hb]
      constructor
      · rintro ⟨gr, hgr, hpr⟩
        rcases List.mem_cons.mp hgr with rfl | htl
        · exact ⟨0, Nat.succ_pos _, Option.some.inj hpr, hc⟩
        · rcases (sessAux_mem_prompt sev total p R (g + 1)).mp ⟨gr, htl, hpr⟩
            with ⟨k, h, hget, hcnd⟩
          exact ⟨k + 1, Nat.succ_lt_succ h, hget, hcnd⟩
      · rintro ⟨k, h, hget, hcnd⟩
        cases k with
        | zero => exact ⟨_, List.mem_cons_self _ _, congrArg some hget⟩
        | succ k =>
          rcases (sessAux_mem_prompt sev total p R (g + 1)).mpr
              ⟨k, Nat.lt_of_succ_lt_succ h, hget, hcnd⟩ with ⟨gr, hgr, hpr⟩
          exact ⟨gr, List.mem_cons_of_mem _ hgr, hpr⟩
    · have hb : ¬ (((windowSessionEvents sev q.ev.ts ((R.head?).map (fun x => x.ev.ts))).length > 0
          || total == 1) = true) := by
        push_neg at hc
        rw [relatedAt_cons_zero] at hc
        simp [hc.1, hc.2]
      rw [sessAux_cons, if_neg hb]
      rw [sessAux_mem_prompt sev total p R g]
      constructor
      · rintro ⟨k, h, hget, hcnd⟩
        exact ⟨k + 1, Nat.succ_lt_succ h, hget, hcnd⟩
      · rintro ⟨k, h, hget, hcnd⟩
        cases k with
        | zero => exact absurd hcnd hc
        | succ k => exact ⟨k, Nat.lt_of_succ_lt_succ h, hget, hcnd⟩

/-- C4: in the specific-session case a relevant prompt is emitted as a
WorkflowGroup exactly when its window captured at least one of the session's
events, or it is the only relevant prompt found; in particular a lone
relevant prompt with zero matched actions still yields a group. -/
theorem relevantPrompt_emission (sev : List Event) (R : List TaggedEvent) (hnd : R.Nodup)
    (k : Nat) (h : k < R.length) :
    (∃ gr, gr ∈ sessAux sev R.length 0 R ∧ gr.prompt = some (R.get ⟨k, h⟩))
    ↔ (¬ relatedAt sev R k = [] ∨ R.length = 1) := by
  rw [sessAux_mem_prompt]
  constructor
  · rintro ⟨j, hj, hget, hcnd⟩
    have hjk : (⟨j, hj⟩ : Fin R.length) = ⟨k, h⟩ := (hnd.get_inj_iff).mp hget
    have : j = k := by
      cases hjk
      rfl
    subst this
    exact hcnd
  · intro hcnd
    exact ⟨k, h, rfl, hcnd⟩

/-- Witness for C4 at a concrete input: a lone relevant prompt whose window
captured no session event is still emitted as a group. -/
theorem relevantPrompt_emission_witness :
    ∃ gr, gr ∈ sessAux [] 1 0 [wPromptC4] ∧ gr.prompt = some wPromptC4 :=
  (relevantPrompt_emission [] [wPromptC4] (by decide) 0 (by decide)).mpr (Or.inr rfl)

/-- Membership in a half-open ownership window over session events. -/
theorem mem_windowSessionEvents (pool : List Event) (lo : Int) (hi : Option Int) (a : Event) :
    a ∈ windowSessionEvents pool lo hi ↔ a ∈ pool ∧ lo < a.ts ∧ ltOptB a.ts hi = true := by
  simp [windowSessionEvents, List.mem_filter]

/-- The specific-session branch of workflowGroups for a found session. -/
theorem workflowGroupsV1_session (sessions : List Session) (sel : String) (s : Session)
    (h1 : ¬ sel = "") (h2 : ¬ sel = "no_session")
    (hf : sessions.find? (fun t => t.id == sel) = some s) :
    workflowGroupsV1 sel sessions = sessionGroups (promptsOf sessions) s := by
  unfold workflowGroupsV1
  rw [if_neg (by simp [h1]), if_neg (by simp [h2]), hf]

/-- The body of sessionGroups on a non-empty session, all local bindings
substituted. -/
theorem sessionGroups_def (prompts : List TaggedEvent) (s : Session)
    (hne : ¬ s.events.isEmpty = true) :
    sessionGroups prompts s =
      (if (sessAux (List.insertionSort tsLeE s.events)
            (relevantPromptsFn prompts (headTsE (List.insertionSort tsLeE s.events))).length 0
            (relevantPromptsFn prompts
              (headTsE (List.insertionSort tsLeE s.events)))).isEmpty
          && !(List.insertionSort tsLeE s.events).isEmpty then
        [{ prompt := none, actions := (List.insertionSort tsLeE s.events).map tagNone,
           id := "session-actions" }]
      else sessAux (List.insertionSort tsLeE s.events)
            (relevantPromptsFn prompts (headTsE (List.insertionSort tsLeE s.events))).length 0
            (relevantPromptsFn prompts (headTsE (List.insertionSort tsLeE s.events)))) := by
  unfold sessionGroups
  rw [if_neg hne]

/-- Core of the pre-session fallback: over a non-empty sorted session whose
relevant prompts all precede its first event, the loop-plus-fallback returns
exactly the single null-prompt group holding every session event precisely
when the relevant prompt list is empty. -/
theorem fallbackCore (sev : List Event) (R : List TaggedEvent)
    (hsev : ¬ sev = []) (ht0 : ∀ p ∈ R, p.ev.ts < headTsE sev) :
    ((if (sessAux sev R.length 0 R).isEmpty && !sev.isEmpty then
        [{ prompt := none, actions := sev.map tagNone, id := "session-actions" }]
      else sessAux sev R.length 0 R)
      = [{ prompt := none, actions := sev.map tagNone, id := "session-actions" }])
    ↔ R = [] := by
  rcases sev with _ | ⟨e, tl⟩
  · exact absurd rfl hsev
  · rcases R with _ | ⟨r, rs⟩
    · simp [sessAux]
    · have hklt : rs.length < (r :: rs).length := by simp
      have hpR : (r :: rs).get ⟨rs.length, hklt⟩ ∈ r :: rs := List.get_mem _ _ _
      have hpts : ((r :: rs).get ⟨rs.length, hklt⟩).ev.ts < e.ts := ht0 _ hpR
      have hrel : ¬ relatedAt (e :: tl) (r :: rs) rs.length = [] := by
        intro hempty
        have hin : e ∈ relatedAt (e :: tl) (r :: rs) rs.length := by
          unfold relatedAt
          rw [List.get?_eq_get hklt,
            show (r :: rs).get? (rs.length + 1) = none from List.get?_eq_none.mpr (by simp)]
          show e ∈ windowSessionEvents (e :: tl) ((r :: rs).get ⟨rs.length, hklt⟩).ev.ts none
          rw [mem_windowSessionEvents]
          exact ⟨List.mem_cons_self e tl, hpts, rfl⟩
        rw [hempty] at hin
        exact absurd hin (List.not_mem_nil e)
      obtain ⟨gr, hgr, hpr⟩ :=
        (sessAux_mem_prompt (e :: tl) (r :: rs).length ((r :: rs).get ⟨rs.length, hklt⟩)
          (r :: rs) 0).mpr ⟨rs.length, hklt, rfl, Or.inl hrel⟩
      have hne2 : ¬ (sessAux (e :: tl) (r :: rs).length 0 (r :: rs)).isEmpty = true := by
        intro hie
        rw [List.isEmpty_iff.mp hie] at hgr
        exact absurd hgr (List.not_mem_nil gr)
      have hcneg : ¬ ((sessAux (e :: tl) (r :: rs).length 0 (r :: rs)).isEmpty
          && !(e :: tl).isEmpty) = true := by
        intro hc
        rw [Bool.and_eq_true] at hc
        exact hne2 hc.1
      rw [if_neg hcneg]
      constructor
      · intro hEq
        rw [hEq] at hgr
        rw [List.mem_singleton.mp hgr] at hpr
        exact absurd hpr (by simp)
      · intro hRnil
        exact absurd hRnil (List.cons_ne_nil r rs)

/-- The fallback characterization lifted to sessionGroups. -/
theorem sessionGroups_fallback_iff (prompts : List TaggedEvent) (s : Session) :
    (sessionGroups prompts s
      = [{ prompt := none, actions := (List.insertionSort tsLeE s.events).map tagNone,
           id := "session-actions" }])
    ↔ (¬ s.events = []
        ∧ relevantPromptsFn prompts (headTsE (List.insertionSort tsLeE s.events)) = []) := by
  by_cases hemp : s.events.isEmpty = true
  · constructor
    · intro hEq
      unfold sessionGroups at hEq
      rw [if_pos hemp] at hEq
      exact absurd hEq (by simp)
    · rintro ⟨hne, _⟩
      exact absurd (List.isEmpty_iff.mp hemp) hne
  · have hnn : ¬ s.events = [] := fun hn => hemp (by rw [hn]; rfl)
    rw [sessionGroups_def prompts s hemp]
    have hsevne : ¬ List.insertionSort tsLeE s.events = [] := by
      intro h0
      have hlen := (List.perm_insertionSort tsLeE s.events).length_eq
      rw [h0] at hlen
      exact hnn (List.length_eq_zero.mp hlen.symm)
    have ht0 : ∀ p ∈ relevantPromptsFn prompts (headTsE (List.insertionSort tsLeE s.events)),
        p.ev.ts < headTsE (List.insertionSort tsLeE s.events) := by
      intro p hp
      have hfp := List.mem_filter.mp hp
      simp only [Bool.and_eq_true, decide_eq_true_eq] at hfp
      exact hfp.2.1
    rw [fallbackCore (List.insertionSort tsLeE s.events)
      (relevantPromptsFn prompts (headTsE (List.insertionSort tsLeE s.events))) hsevne ht0]
    simp [hnn]

/-- C5: in the specific-session case, the single null-prompt WorkflowGroup
holding all of the session's events (chronologically sorted) is returned
exactly when the session is non-empty and no relevant prompt (strictly
within 5 minutes before the session's earliest event) exists. -/
theorem preSession_fallback (sessions : List Session) (sel : String) (s : Session)
    (h1 : ¬ sel = "") (h2 : ¬ sel = "no_session")
    (hf : sessions.find? (fun t => t.id == sel) = some s) :
    (workflowGroupsV1 sel sessions
      = [{ prompt := none, actions := (List.insertionSort tsLeE s.events).map tagNone,
           id := "session-actions" }])
    ↔ (¬ s.events = []
        ∧ relevantPromptsFn (promptsOf sessions)
            (headTsE (List.insertionSort tsLeE s.events)) = []) := by
  rw [workflowGroupsV1_session sessions sel s h1 h2 hf]
  exact sessionGroups_fallback_iff (promptsOf sessions) s

/-- Witness for C5 at a concrete input: a one-action session with no prompt
anywhere in the corpus yields exactly the null-prompt fallback group. -/
theorem preSession_fallback_witness :
    workflowGroupsV1 "s1" wSessC5
      = [{ prompt := none, actions := [⟨⟨"a5", "file_write", "", 100⟩, none⟩],
           id := "session-actions" }] :=
  (preSession_fallback wSessC5 "s1" wSessionC5 (by decide) (by decide) (by decide)).mpr
    ⟨by decide, by decide⟩

end WCorr

namespace WMetrics

/-- C6 counterexample: aggregating the client-side metrics of the first App
variant over the empty Event set reports a distinct-session count of 1, not
0 (the zero-division guard is applied to the stored count itself). -/
theorem emptyAggregate_cex :
    (metricsV1 [] 0).filteredSessionCount = 1
      ∧ ¬ (metricsV1 [] 0).filteredSessionCount = 0 := by
  exact ⟨rfl, by decide⟩

/-- C6 amended: aggregating over the empty Event set never errors and
returns zero for every count and an all-zero recent-days strip, except that
the first variant's distinct-session count is clamped to 1 by its
division-by-zero guard (and that variant produces no date-range field); the
second variant's loading-state snapshot is all-zero with a null date
range. -/
theorem emptyAggregate_zeroes :
    (∀ nowMs : Int,
        (metricsV1 [] nowMs).totalEvents = 0
      ∧ (metricsV1 [] nowMs).categoryBreakdown = []
      ∧ (metricsV1 [] nowMs).hourlyActivity = List.replicate 24 0
      ∧ (metricsV1 [] nowMs).dailyActivity = List.replicate 7 0
      ∧ (metricsV1 [] nowMs).topFiles = []
      ∧ (metricsV1 [] nowMs).topCommands = []
      ∧ (metricsV1 [] nowMs).topMcpTools = []
      ∧ (metricsV1 [] nowMs).totalLinesAdded = 0
      ∧ (metricsV1 [] nowMs).totalLinesRemoved = 0
      ∧ (metricsV1 [] nowMs).uniqueFilesCount = 0
      ∧ (metricsV1 [] nowMs).avgEventsPerSession = 0
      ∧ (metricsV1 [] nowMs).recentDays.map (fun d => d.count) = List.replicate 7 0
      ∧ (metricsV1 [] nowMs).filteredSessionCount = 1)
  ∧ metricsV2 none =
      { totalEvents := 0, categoryBreakdown := [],
        hourlyActivity := List.replicate 24 0, dailyActivity := List.replicate 7 0,
        recentDays := [], topFiles := [], topCommands := [], topMcpTools := [],
        uniqueSessions := 0, totalLinesAdded := 0, totalLinesRemoved := 0,
        uniqueFilesCount := 0, dateRange := (none, none) } :=
  ⟨fun _ => ⟨rfl, rfl, rfl, rfl, rfl, rfl, rfl, rfl, rfl, rfl, rfl, rfl, rfl⟩, rfl⟩

/-- C9 counterexample: the same one-event set aggregated at two different
wall-clock instants (thirty days apart) yields different last-7-days daily
counts, so the snapshot is not a pure function of the Event set alone. -/
theorem snapshot_time_cex :
    ¬ ((metricsV1 [clockLog] 345600000).recentDays.map (fun d => d.count)
        = (metricsV1 [clockLog] 2937600000).recentDays.map (fun d => d.count)) := by
  decide

/-- C9 amended: the snapshot is a pure function of the Event set and of the
evaluation-time clock: every field other than the recent-days strip and its
display maximum is independent of the clock, so two runs over the same
Event set agree on all of them; only the last-7-days daily counts (and
their maximum) can differ between runs. -/
theorem snapshot_clock_fields :
    ∀ (logs : List Log) (n1 n2 : Int),
        (metricsV1 logs n1).totalEvents = (metricsV1 logs n2).totalEvents
      ∧ (metricsV1 logs n1).categoryBreakdown = (metricsV1 logs n2).categoryBreakdown
      ∧ (metricsV1 logs n1).hourlyActivity = (metricsV1 logs n2).hourlyActivity
      ∧ (metricsV1 logs n1).maxHourly = (metricsV1 logs n2).maxHourly
      ∧ (metricsV1 logs n1).dailyActivity = (metricsV1 logs n2).dailyActivity
      ∧ (metricsV1 logs n1).dayNames = (metricsV1 logs n2).dayNames
      ∧ (metricsV1 logs n1).maxDaily = (metricsV1 logs n2).maxDaily
      ∧ (metricsV1 logs n1).topFiles = (metricsV1 logs n2).topFiles
      ∧ (metricsV1 logs n1).topCommands = (metricsV1 logs n2).topCommands
      ∧ (metricsV1 logs n1).topMcpTools = (metricsV1 logs n2).topMcpTools
      ∧ (metricsV1 logs n1).avgEventsPerSession = (metricsV1 logs n2).avgEventsPerSession
      ∧ (metricsV1 logs n1).totalLinesAdded = (metricsV1 logs n2).totalLinesAdded
      ∧ (metricsV1 logs n1).totalLinesRemoved = (metricsV1 logs n2).totalLinesRemoved
      ∧ (metricsV1 logs n1).uniqueFilesCount = (metricsV1 logs n2).uniqueFilesCount
      ∧ (metricsV1 logs n1).filteredSessionCount = (metricsV1 logs n2).filteredSessionCount :=
  fun _ _ _ =>
    ⟨rfl, rfl, rfl, rfl, rfl, rfl, rfl, rfl, rfl, rfl, rfl, rfl, rfl, rfl, rfl⟩

/-- C8 counterexample: the client-side day-of-week histogram of the first
App variant puts a Sunday event into bucket 0 (0=Sunday convention), not
bucket 6 as the claimed 0=Monday computed form requires. -/
theorem dayOfWeek_convention_cex :
    (metricsV1 [sundayLog] 0).dailyActivity = [1, 0, 0, 0, 0, 0, 0]
  ∧ backendDailyActivity [sundayLog] = [0, 0, 0, 0, 0, 0, 1]
  ∧ ¬ ((metricsV1 [sundayLog] 0).dailyActivity = backendDailyActivity [sundayLog]) := by
  refine ⟨by decide, by decide, by decide⟩

/-- C8 amended: in the server-backed second App variant the day-of-week
histogram is computed with buckets 0=Monday..6=Sunday (backend) and rotated
to the 0=Sunday convention at the presentation boundary — the rotation of
the Monday-first histogram is exactly the Sunday-first histogram that the
first App variant computes directly client-side, with no rotation of its
own. -/
theorem dayOfWeek_rotation :
    (∀ (agg : AggMetrics) (l : List Nat), agg.daily_activity = some l →
        (metricsV2 (some agg)).dailyActivity = rotateDaily l)
  ∧ ∀ (logs : List Log) (nowMs : Int),
      rotateDaily (backendDailyActivity logs) = (metricsV1 logs nowMs).dailyActivity :=
  ⟨fun agg l h => by simp only [metricsV2, h, Option.getD_some], fun _ _ => rfl⟩

/-- Witness for C8 at a concrete payload: a server histogram is rotated one
slot, its last (Sunday) bucket moving to the front. -/
theorem dayOfWeek_rotation_witness :
    (metricsV2 (some aggC8)).dailyActivity = rotateDaily [1, 2, 3, 4, 5, 6, 7] :=
  dayOfWeek_rotation.1 aggC8 [1, 2, 3, 4, 5, 6, 7] rfl

/-- Incrementing a key leaves its stored count one higher. -/
theorem lookupD_bumpKey_self (acc : List (String × Nat)) (k : String) :
    lookupD (bumpKey acc k) k = lookupD acc k + 1 := by
  induction acc with
  | nil => simp [bumpKey, lookupD]
  | cons hd tl ih =>
    obtain ⟨k2, n⟩ := hd
    by_cases h : k2 = k
    · simp [bumpKey, lookupD, h]
    · simp [bumpKey, lookupD, h, ih]

/-- Incrementing a key leaves every other key's count unchanged. -/
theorem lookupD_bumpKey_ne (acc : List (String × Nat)) (k k2 : String) (hne : ¬ k2 = k) :
    lookupD (bumpKey acc k) k2 = lookupD acc k2 := by
  induction acc with
  | nil =>
    have h2 : ¬ k = k2 := fun h => hne h.symm
    simp [bumpKey, lookupD, h2]
  | cons hd tl ih =>
    obtain ⟨k3, n⟩ := hd
    have h2 : ¬ k = k2 := fun he => hne he.symm
    by_cases h : k3 = k
    · have h32 : ¬ k3 = k2 := fun he => hne (he.symm.trans h)
      simp [bumpKey, lookupD, h, h32, h2]
    · by_cases h32 : k3 = k2
      · simp [bumpKey, lookupD, h, h32, h2, hne]
      · simp [bumpKey, lookupD, h, h32, h2, ih]

/-- Incrementing a key inserts it at the end exactly when it was absent,
matching first-seen Set insertion on the key list. -/
theorem keys_bumpKey (acc : List (String × Nat)) (k : String) :
    (bumpKey acc k).map Prod.fst = addNew (acc.map Prod.fst) k := by
  induction acc with
  | nil => simp [bumpKey, addNew]
  | cons hd tl ih =>
    obtain ⟨k2, n⟩ := hd
    by_cases h : k2 = k
    · subst h
      simp [bumpKey, addNew, List.contains_cons]
    · have h2 : ¬ k = k2 := fun he => h he.symm
      by_cases hc : k ∈ tl.map Prod.fst
      · simp [bumpKey, addNew, h, h2, hc, ih, List.contains_cons, List.elem_iff]
      · simp [bumpKey, addNew, h, h2, hc, ih, List.contains_cons, List.elem_iff]

/-- The final count of a key in the fold is its start value plus its number
of occurrences. -/
theorem tally_lookup : ∀ (ks : List String) (acc : List (String × Nat)) (k : String),
    lookupD (ks.foldl bumpKey acc) k = lookupD acc k + ks.count k
  | [], acc, k => by simp
  | k1 :: rest, acc, k => by
    rw [List.foldl_cons, tally_lookup rest (bumpKey acc k1) k]
    by_cases h : k1 = k
    · subst h
      rw [lookupD_bumpKey_self, List.count_cons_self]
      omega
    · rw [lookupD_bumpKey_ne acc k1 k (fun he => h he.symm),
        List.count_cons_of_ne (fun he => h he.symm)]

/-- Key lists of the counting fold follow first-seen Set insertion. -/
theorem keys_foldl : ∀ (ks : List String) (acc : List (String × Nat)),
    (ks.foldl bumpKey acc).map Prod.fst = ks.foldl addNew (acc.map Prod.fst)
  | [], _ => rfl
  | k :: rest, acc => by
    rw [List.foldl_cons, List.foldl_cons, keys_foldl rest (bumpKey acc k), keys_bumpKey]

/-- The keys of a counter object enumerate in first-seen order. -/
theorem tally_keys (ks : List String) : (tally ks).map Prod.fst = dedupFS ks :=
  keys_foldl ks []

/-- Set insertion preserves key distinctness. -/
theorem addNew_nodup (l : List String) (k : String) (h : l.Nodup) : (addNew l k).Nodup := by
  unfold addNew
  by_cases hc : l.contains k = true
  · rw [if_pos hc]
    exact h
  · rw [if_neg hc]
    have hk : ¬ k ∈ l := fun hm => hc (List.elem_iff.mpr hm)
    simp [List.nodup_append, h, hk]

/-- First-seen deduplication yields distinct keys. -/
theorem dedupFS_nodup_aux : ∀ (ks : List String) (acc : List String),
    acc.Nodup → (ks.foldl addNew acc).Nodup
  | [], _, h => h
  | k :: rest, acc, h => dedupFS_nodup_aux rest (addNew acc k) (addNew_nodup acc k h)

/-- With distinct keys, lookup of a listed pair returns its stored count. -/
theorem lookupD_of_mem : ∀ (l : List (String × Nat)),
    (l.map Prod.fst).Nodup → ∀ p ∈ l, lookupD l p.1 = p.2
  | [], _, p, hp => absurd hp (List.not_mem_nil p)
  | (k2, n) :: rest, hnd, p, hp => by
    have hnd' : (k2 :: rest.map Prod.fst).Nodup := by rwa [List.map_cons] at hnd
    have hhead : ∀ x ∈ rest.map Prod.fst, k2 ≠ x := (List.pairwise_cons.mp hnd').1
    have htail : (rest.map Prod.fst).Nodup := (List.pairwise_cons.mp hnd').2
    rcases List.mem_cons.mp hp with rfl | htl
    · simp [lookupD]
    · have hk2 : ¬ k2 = p.1 := hhead p.1 (List.mem_map_of_mem Prod.fst htl)
      show (if k2 == p.1 then n else lookupD rest p.1) = p.2
      rw [if_neg (by simp [hk2])]
      exact lookupD_of_mem rest htail p htl

/-- The top-N sort is a permutation of the counter entries. -/
theorem sortCnt_perm (l : List (String × Nat)) : (sortCnt l).Perm l :=
  List.perm_insertionSort cntGe l

/-- The top-N sort is sorted by descending count. -/
theorem sortCnt_sorted (l : List (String × Nat)) : (sortCnt l).Pairwise cntGe :=
  List.sorted_insertionSort cntGe l

/-- One stable insertion preserves each count class in order: the inserted
entry lands in front of its own count class and disturbs no other. -/
theorem filter_orderedInsert (x : String × Nat) (c : Nat) :
    ∀ l : List (String × Nat),
      (List.orderedInsert cntGe x l).filter (fun p => p.2 == c)
        = if x.2 == c then x :: l.filter (fun p => p.2 == c)
          else l.filter (fun p => p.2 == c)
  | [] => by
    by_cases h : x.2 = c <;> simp [List.orderedInsert, h]
  | y :: l => by
    by_cases hr : cntGe x y
    · by_cases h : x.2 = c <;> simp [List.orderedInsert, hr, List.filter_cons, h]
    · have hxy : x.2 < y.2 := Nat.lt_of_not_le hr
      simp only [List.orderedInsert, if_neg hr, List.filter_cons]
      rw [filter_orderedInsert x c l]
      by_cases hx : x.2 = c
      · have hyc : ¬ y.2 = c := by omega
        simp [hx, hyc]
      · by_cases hy : y.2 = c <;> simp [hx, hy]

/-- Stability of the top-N sort: within each count class, entries keep their
original (first-seen) order. -/
theorem filter_sortCnt (c : Nat) : ∀ l : List (String × Nat),
    (sortCnt l).filter (fun p => p.2 == c) = l.filter (fun p => p.2 == c)
  | [] => rfl
  | x :: l => by
    have h1 : sortCnt (x :: l) = List.orderedInsert cntGe x (sortCnt l) := rfl
    rw [h1, filter_orderedInsert, filter_sortCnt c l]
    by_cases h : x.2 = c <;> simp [List.filter_cons, h]

/-- Enumeration reordering neither adds nor removes entries. -/
theorem mem_jsEntries (l : List (String × Nat)) (p : String × Nat) :
    p ∈ jsEntries l ↔ p ∈ l := by
  unfold jsEntries
  rw [List.mem_append,
    (List.perm_insertionSort idxLe (l.filter (fun q => isArrayIndex q.1))).mem_iff]
  simp only [List.mem_filter]
  by_cases h : isArrayIndex p.1 = true <;> simp [h]

/-- When no key is an array-index string, Object.entries enumeration is pure
insertion order. -/
theorem jsEntries_of_no_index (l : List (String × Nat))
    (h : ∀ p ∈ l, ¬ isArrayIndex p.1 = true) : jsEntries l = l := by
  unfold jsEntries
  have h1 : l.filter (fun p => isArrayIndex p.1) = [] := List.filter_eq_nil_iff.mpr h
  have h2 : l.filter (fun p => !isArrayIndex p.1) = l := by
    rw [List.filter_eq_self]
    intro a ha
    simp [h a ha]
  rw [h1, h2]
  rfl

/-- C7 counterexample: over writes touching a.py first and a file named 3
second (one write each), Object.entries enumerates the array-index key
first, so the stable count sort returns the tied entries as
[(3, 1), (a.py, 1)] — not in the claimed first-seen order, which would put
a.py first. -/
theorem topFiles_firstSeen_cex :
    topFilesV1 cexTopFiles = [("3", 1), ("a.py", 1)]
  ∧ writeFileNames cexTopFiles = ["a.py", "3"]
  ∧ ¬ topFilesV1 cexTopFiles = [("a.py", 1), ("3", 1)] := by
  decide

/-- C7 amended: the top-modified-files metric groups file_write events by
the basename of their file path, sorts by count descending with a stable
sort, and returns at most 8 entries; ties are broken by the JS object
enumeration order of the counter — array-index-like basenames first in
ascending numeric order, then the remaining basenames in first-seen order —
which coincides with pure first-seen order exactly when no basename is an
array-index string; the three-write example still yields
[(a.py, 2), (b.py, 1)]. -/
theorem topFiles_ranking :
    (∀ logs : List Log,
        (topFilesV1 logs).length ≤ 8
      ∧ (topFilesV1 logs).Pairwise cntGe
      ∧ (∀ p, p ∈ topFilesV1 logs → p.2 = (writeFileNames logs).count p.1)
      ∧ (fileCounts logs).map Prod.fst = dedupFS (writeFileNames logs)
      ∧ ((∀ p ∈ fileCounts logs, ¬ isArrayIndex p.1 = true) →
            jsEntries (fileCounts logs) = fileCounts logs)
      ∧ (∀ c : Nat, (sortCnt (jsEntries (fileCounts logs))).filter (fun p => p.2 == c)
            = (jsEntries (fileCounts logs)).filter (fun p => p.2 == c)))
  ∧ topFilesV1 exampleTopFiles = [("a.py", 2), ("b.py", 1)] := by
  constructor
  · intro logs
    refine ⟨List.length_take_le _ _,
      List.Pairwise.sublist (List.take_sublist _ _) (sortCnt_sorted _),
      ?_, tally_keys _, jsEntries_of_no_index _, fun c => filter_sortCnt c _⟩
    intro p hp
    have h1 : p ∈ sortCnt (jsEntries (fileCounts logs)) := (List.take_sublist _ _).subset hp
    have h2 : p ∈ jsEntries (fileCounts logs) := (sortCnt_perm _).mem_iff.mp h1
    have h3 : p ∈ fileCounts logs := (mem_jsEntries _ p).mp h2
    have hkeys : (fileCounts logs).map Prod.fst = dedupFS (writeFileNames logs) :=
      tally_keys _
    have hnd : ((fileCounts logs).map Prod.fst).Nodup := by
      rw [hkeys]
      exact dedupFS_nodup_aux (writeFileNames logs) [] List.nodup_nil
    have h4 : lookupD (fileCounts logs) p.1 = p.2 := lookupD_of_mem _ hnd p h3
    have h5 : lookupD (fileCounts logs) p.1 = (writeFileNames logs).count p.1 := by
      have h6 := tally_lookup (writeFileNames logs) [] p.1
      simpa [fileCounts, tally, lookupD] using h6
    exact h4.symm.trans h5
  · decide

/-- Witness for C7 at a concrete input: the leading ranked entry's count is
the number of write events touching that basename, and the example's
counter, free of array-index basenames, enumerates purely first-seen. -/
theorem topFiles_ranking_witness :
    (2 : Nat) = (writeFileNames exampleTopFiles).count "a.py"
  ∧ jsEntries (fileCounts exampleTopFiles) = fileCounts exampleTopFiles :=
  ⟨(topFiles_ranking.1 exampleTopFiles).2.2.1 ("a.py", 2) (by decide),
   (topFiles_ranking.1 exampleTopFiles).2.2.2.2.1 (by decide)⟩

end WMetrics
